import Mathlib

set_option linter.unusedVariables false

namespace MapViewer

/-- Geographic bounds of one raster, read from the lowerLeft and upperRight
corner coordinates of the metadata tool output (get_geotiff_info). -/
structure Bounds where
  west : ℚ
  south : ℚ
  east : ℚ
  north : ℚ
deriving DecidableEq, Repr

/-- Result of a successful get_geotiff_info call: bounds, pixel dimensions and
the pixel width in map units (geoTransform entry 1). -/
structure RasterInfo where
  bounds : Bounds
  width : ℕ
  height : ℕ
  pixel_size : ℚ
deriving DecidableEq, Repr

/-- An input raster file, split into the filename stem (Path.stem) and the
extension, so that the full name is stem ++ ext. -/
structure SrcFile where
  stem : String
  ext : String
deriving DecidableEq, Repr

/-- Full file name of an input file. -/
def fname (f : SrcFile) : String := f.stem ++ f.ext

/-- Environment oracle for the two shelled-out tools: gdalinfo results per
file name (none models a non-zero exit or unparsable JSON, both caught in
get_geotiff_info), gdal2tiles success per file name, and availability of the
GDAL tools for the pre-flight check in main. -/
structure World where
  extract : String → Option RasterInfo
  tile_ok : String → Bool
  gdal_ok : Bool

/-- Per-layer record stored in ortho_configs by main. -/
structure OrthoConfig where
  bounds : Option Bounds
  min_zoom : Option ℤ
  max_zoom : Option ℤ
  source_file : String
deriving DecidableEq, Repr

/-- Web Mercator meters per pixel at zoom level 0, the constant used by
calculate_zoom_levels. -/
noncomputable def meters_per_pixel_zoom0 : ℝ := 156543.03392804097

/-- Python int() on a float: truncation toward zero. -/
noncomputable def pyInt (x : ℝ) : ℤ := if 0 ≤ x then ⌊x⌋ else ⌈x⌉

/-- The optimal zoom computed by calculate_zoom_levels:
log2(meters_per_pixel_zoom0 / abs(pixel_size)). -/
noncomputable def optimal_zoom (pixel_size : ℝ) : ℝ :=
  Real.logb 2 (meters_per_pixel_zoom0 / |pixel_size|)

/-- Integer tail of calculate_zoom_levels, taking t = int(optimal_zoom):
clamping, normalization and the high-resolution fallback. -/
def zoom_from_int (t : ℤ) : ℤ × ℤ :=
  let calculated_min := max 1 (t - 8)
  let calculated_max := min 22 (t + 4)
  let min_zoom := min calculated_min calculated_max
  let max_zoom := max calculated_min calculated_max
  if min_zoom > 18 then (10, 22) else (min_zoom, max_zoom)

/-- calculate_zoom_levels(pixel_size, image_width) from the source. The
image_width argument is accepted and ignored, exactly as in the source. -/
noncomputable def calculate_zoom_levels (pixel_size : ℝ) (image_width : ℕ) : ℤ × ℤ :=
  zoom_from_int (pyInt (optimal_zoom pixel_size))

/-- generate_tiles from the source: extract metadata (failure propagates as
an all-None triple), compute the zoom range, run the tiling tool, and on a
tiling failure again return the all-None triple, discarding the bounds. -/
noncomputable def generate_tiles (w : World) (f : SrcFile) :
    Option Bounds × Option ℤ × Option ℤ :=
  match w.extract (fname f) with
  | none => (none, none, none)
  | some info =>
    let z := calculate_zoom_levels (info.pixel_size : ℝ) info.width
    if w.tile_ok (fname f) then (some info.bounds, some z.1, some z.2)
    else (none, none, none)

/-- The ortho_configs dictionary entry main builds for one file. -/
noncomputable def mkEntry (w : World) (f : SrcFile) : OrthoConfig :=
  ⟨(generate_tiles w f).1, (generate_tiles w f).2.1, (generate_tiles w f).2.2, fname f⟩

/-- Assignment into a Python dict kept as an insertion-ordered association
list: an existing key is updated in place, a new key is appended. -/
def dictInsert : List (String × OrthoConfig) → String → OrthoConfig → List (String × OrthoConfig)
  | [], k, v => [(k, v)]
  | e :: es, k, v => if e.1 = k then (k, v) :: es else e :: dictInsert es k v

/-- One iteration of the processing loop in main. -/
noncomputable def step (w : World) (d : List (String × OrthoConfig)) (f : SrcFile) :
    List (String × OrthoConfig) :=
  dictInsert d f.stem (mkEntry w f)

/-- The whole processing loop of main: fold over the discovered files,
starting from the empty ortho_configs dictionary. -/
noncomputable def processAll (w : World) (fs : List SrcFile) : List (String × OrthoConfig) :=
  fs.foldl (step w) []

/-- The all_bounds list of update_map_config: bounds of every layer whose
bounds value is truthy (a dict, hence present). -/
def all_bounds (cfgs : List (String × OrthoConfig)) : List Bounds :=
  cfgs.filterMap (fun e => e.2.bounds)

/-- Python truthiness filter for an optional integer: None and 0 are falsy. -/
def truthy_int : Option ℤ → Option ℤ
  | none => none
  | some z => if z = 0 then none else some z

/-- The all_min_zooms list of update_map_config. -/
def all_min_zooms (cfgs : List (String × OrthoConfig)) : List ℤ :=
  cfgs.filterMap (fun e => truthy_int e.2.min_zoom)

/-- The all_max_zooms list of update_map_config. -/
def all_max_zooms (cfgs : List (String × OrthoConfig)) : List ℤ :=
  cfgs.filterMap (fun e => truthy_int e.2.max_zoom)

/-- The per-layer data update_map_config renders into the orthoLayers block:
the layer name and its optional bounds, in dictionary order. -/
def layersOf (cfgs : List (String × OrthoConfig)) : List (String × Option Bounds) :=
  cfgs.map (fun e => (e.1, e.2.bounds))

/-- The numeric values update_map_config computes before rendering. -/
structure SynthValues where
  min_west : ℚ
  max_east : ℚ
  min_south : ℚ
  max_north : ℚ
  center_lat : ℚ
  center_lng : ℚ
  max_range : ℚ
  initial_zoom : ℤ
  overall_min_zoom : ℤ
  overall_max_zoom : ℤ

/-- Computation core of update_map_config, lines 119-145 of the source: on an
empty all_bounds list the function returns early with no artifact; otherwise
overall bounds are component-wise min/max, the center is the midpoint, the
initial zoom is max(1, int(10 - log2(max_range * 10))), and the overall zoom
range is the min of the minima (default 5) and max of the maxima (default 18). -/
noncomputable def synth_core (allb : List Bounds) (mins maxs : List ℤ) : Option SynthValues :=
  match allb with
  | [] => none
  | b :: bs =>
    let min_west := bs.foldl (fun a x => min a x.west) b.west
    let max_east := bs.foldl (fun a x => max a x.east) b.east
    let min_south := bs.foldl (fun a x => min a x.south) b.south
    let max_north := bs.foldl (fun a x => max a x.north) b.north
    let center_lat := (min_south + max_north) / 2
    let center_lng := (min_west + max_east) / 2
    let lat_range := max_north - min_south
    let lng_range := max_east - min_west
    let max_range := max lat_range lng_range
    let initial_zoom := max 1 (pyInt ((10 : ℝ) - Real.logb 2 ((max_range : ℝ) * 10)))
    let overall_min_zoom : ℤ := match mins with | [] => 5 | z :: zs => zs.foldl min z
    let overall_max_zoom : ℤ := match maxs with | [] => 18 | z :: zs => zs.foldl max z
    some ⟨min_west, max_east, min_south, max_north, center_lat, center_lng, max_range,
      initial_zoom, overall_min_zoom, overall_max_zoom⟩

/-- update_map_config values computed from the ortho_configs dictionary. -/
noncomputable def synth_values (cfgs : List (String × OrthoConfig)) : Option SynthValues :=
  synth_core (all_bounds cfgs) (all_min_zooms cfgs) (all_max_zooms cfgs)

/-- Left-pad a natural number with zeros to six digits. -/
def natPad6 (n : ℕ) : String :=
  let s := toString n
  String.mk (List.replicate (6 - s.length) '0') ++ s

/-- Fixed-point rendering of a rational with six decimals, the shape produced
by the .6f format specifier in the source. -/
def formatQ6 (q : ℚ) : String :=
  let n : ℤ := round (q * 1000000)
  let a : ℕ := n.natAbs
  let sign := if n < 0 then "-" else ""
  sign ++ toString (a / 1000000) ++ "." ++ natPad6 (a % 1000000)

/-- Rendered orthoLayers entry for a layer with bounds. -/
def renderBoundedEntry (name : String) (b : Bounds) : String :=
  "        \x7b\n            name: \x27" ++ name ++ "\x27,\n            url: \x27../tiles/" ++ name ++ "/{z}/{x}/{y}.png\x27,\n            bounds: [[" ++ formatQ6 b.south ++ ", " ++ formatQ6 b.west ++ "], [" ++ formatQ6 b.north ++ ", " ++ formatQ6 b.east ++ "]]\n        \x7d,\n"

/-- Rendered orthoLayers entry for a layer without bounds. -/
def renderNullEntry (name : String) : String :=
  "        \x7b\n            name: \x27" ++ name ++ "\x27,\n            url: \x27../tiles/" ++ name ++ "/{z}/{x}/{y}.png\x27,\n            bounds: null\n        \x7d,\n"

/-- Fixed trailing block of the generated map.js (map initialization code). -/
def render_tail : String :=
  "    ]\n\x7d;\n\n// Initialize the map\nconst map = L.map(\x27map\x27).setView([CONFIG.initialView.lat, CONFIG.initialView.lng], CONFIG.initialView.zoom);\n\n// Add OpenStreetMap base layer with 50% transparency\nconst osmLayer = L.tileLayer(\x27https://{s}.tile.openstreetmap.org/{z}/{x}/{y}.png\x27, \x7b\n    attribution: \x27© OpenStreetMap contributors\x27,\n    opacity: 0.5,\n    maxZoom: 19\n\x7d);\nosmLayer.addTo(map);\n\n// Dynamically add ortho tile layers\nCONFIG.orthoLayers.forEach(layerConfig => \x7b\n    const layer = L.tileLayer(layerConfig.url, \x7b\n        attribution: layerConfig.name,\n        maxZoom: CONFIG.zoomLevels.max,\n        tms: false,\n        bounds: layerConfig.bounds\n    \x7d);\n    layer.addTo(map);\n\x7d);\n\n// Set zoom limits\nmap.options.minZoom = CONFIG.zoomLevels.min;\nmap.options.maxZoom = CONFIG.zoomLevels.max;"

/-- Full text of the generated map.js for the given synthesized values and
ordered layer list, mirroring the string template of update_map_config. -/
def render (v : SynthValues) (layers : List (String × Option Bounds)) : String :=
  let header :=
    "// Configuration - Auto-generated from ortho processing\nconst CONFIG = \x7b\n    initialView: \x7b\n        lat: " ++ formatQ6 v.center_lat ++ ",\n        lng: " ++ formatQ6 v.center_lng ++ ",\n        zoom: " ++ toString v.initial_zoom ++ "\n    \x7d,\n    \n    zoomLevels: \x7b\n        min: " ++ toString v.overall_min_zoom ++ ",\n        max: " ++ toString v.overall_max_zoom ++ "\n    \x7d,\n    \n    orthoLayers: [\n"
  let body := layers.foldl
    (fun acc e =>
      acc ++ (match e.2 with
        | some b => renderBoundedEntry e.1 b
        | none => renderNullEntry e.1))
    ""
  header ++ body ++ render_tail

/-- update_map_config as a whole: the artifact content it writes, or none
when it returns early because no layer has bounds. -/
noncomputable def update_map_config (cfgs : List (String × OrthoConfig)) : Option String :=
  Option.map (fun v => render v (layersOf cfgs)) (synth_values cfgs)

/-- Control flow of main: exit code, the collected ortho_configs, and the
artifact content written by update_map_config. The GDAL pre-flight check and
the empty-input check both exit with code 1 before any processing; otherwise
every discovered file is processed and the run ends with exit code 0. -/
noncomputable def mainRun (w : World) (tifs tiffs : List SrcFile) :
    ℕ × List (String × OrthoConfig) × Option String :=
  if w.gdal_ok = false then (1, [], none)
  else
    let geotiff_files := tifs ++ tiffs
    if geotiff_files = [] then (1, [], none)
    else
      let ortho_configs := processAll w geotiff_files
      (0, ortho_configs, update_map_config ortho_configs)

/-- Projection of a dictionary entry to the fields update_map_config reads:
key, bounds, min zoom and max zoom; the source_file field is not read. -/
def projCfg (e : String × OrthoConfig) : String × Option Bounds × Option ℤ × Option ℤ :=
  (e.1, e.2.bounds, e.2.min_zoom, e.2.max_zoom)

/-- Pixel size so large that the truncated optimal zoom is -10. -/
noncomputable def psLowRes : ℝ := meters_per_pixel_zoom0 * 2 ^ (10 : ℕ)

/-- Pixel size whose optimal zoom is 25 + log2 3, strictly between 26 and 27. -/
noncomputable def psHighRes : ℝ := meters_per_pixel_zoom0 / (3 * 2 ^ (25 : ℕ))

/-- Pixel size whose optimal zoom is exactly 30. -/
noncomputable def psFallback : ℝ := meters_per_pixel_zoom0 / 2 ^ (30 : ℕ)

/-- A world in which gdalinfo fails on every file. -/
def wFail : World := ⟨fun _ => none, fun _ => true, true⟩

/-- Input file a.tif. -/
def fileA : SrcFile := ⟨"a", ".tif"⟩

/-- Input file b.tif. -/
def fileB : SrcFile := ⟨"b", ".tif"⟩

/-- Input file a.tiff, sharing the stem of a.tif. -/
def fileATiff : SrcFile := ⟨"a", ".tiff"⟩

/-- Metadata for the tiling-failure scenario. -/
def infoA : RasterInfo := ⟨⟨0, 0, 1, 1⟩, 100, 100, 1⟩

/-- A world in which gdalinfo succeeds on a.tif but gdal2tiles fails. -/
def wTileFail : World :=
  ⟨fun s => if s = "a.tif" then some infoA else none, fun _ => false, true⟩

/-- One-layer dictionary with an extent of 1 by 8/5 degrees. -/
def cfgC6 : List (String × OrthoConfig) :=
  [("a", ⟨some ⟨0, 0, 8/5, 1⟩, some 2, some 7, "a.tif"⟩)]

/-- Values update_map_config computes for cfgC6. -/
def vC6 : SynthValues := ⟨0, 8/5, 0, 1, 1/2, 4/5, 8/5, 6, 2, 7⟩

/-- The three layers of the worked bounds example. -/
def cfgs7 : List (String × OrthoConfig) :=
  [("layer1", ⟨some ⟨-1, 0, 1, 2⟩, some 3, some 12, "layer1.tif"⟩),
   ("layer2", ⟨some ⟨2, 1, 3, 3⟩, some 3, some 12, "layer2.tif"⟩),
   ("layer3", ⟨some ⟨-2, -1, 0, 1⟩, some 3, some 12, "layer3.tif"⟩)]

/-- A one-layer dictionary whose layer has no bounds. -/
def cfgsA : List (String × OrthoConfig) := [("a", ⟨none, none, none, "a.tif"⟩)]

/-- Same as cfgsA except for the unused source_file field. -/
def cfgsB : List (String × OrthoConfig) := [("a", ⟨none, none, none, "a2.tif"⟩)]

lemma zoom_from_int_le (t : ℤ) : (zoom_from_int t).1 ≤ (zoom_from_int t).2 := by
  dsimp only [zoom_from_int]
  split <;> simp

lemma zoom_from_int_range (t : ℤ) (ht : -3 ≤ t) :
    1 ≤ (zoom_from_int t).1 ∧ (zoom_from_int t).2 ≤ 22 := by
  dsimp only [zoom_from_int]
  split <;> constructor <;> simp <;> omega

lemma zoom_from_int_high (t : ℤ) (ht : 27 ≤ t) : zoom_from_int t = (10, 22) := by
  dsimp only [zoom_from_int]
  rw [if_pos (by omega)]

lemma meters_per_pixel_zoom0_pos : 0 < meters_per_pixel_zoom0 := by
  norm_num [meters_per_pixel_zoom0]

lemma pyInt_of_nonneg {x : ℝ} (h : 0 ≤ x) : pyInt x = ⌊x⌋ := if_pos h

/-- Python max(1, int(x)) agrees with max(1, floor(x)) for every real x:
for nonnegative x truncation is the floor, and for negative x both sides
clamp to 1. -/
lemma max_one_pyInt_eq_max_one_floor (x : ℝ) : max 1 (pyInt x) = max 1 ⌊x⌋ := by
  unfold pyInt
  split
  · rfl
  · rename_i h
    have hx : x < 0 := lt_of_not_le h
    have h1 : ⌈x⌉ ≤ (0 : ℤ) := Int.ceil_le.mpr (by exact_mod_cast hx.le)
    have h2 : ⌊x⌋ ≤ ⌈x⌉ := Int.floor_le_ceil x
    omega

lemma generate_tiles_extract_none {w : World} {f : SrcFile}
    (h : w.extract (fname f) = none) : generate_tiles w f = (none, none, none) := by
  unfold generate_tiles
  rw [h]

lemma generate_tiles_tile_fail {w : World} {f : SrcFile} {info : RasterInfo}
    (h1 : w.extract (fname f) = some info) (h2 : w.tile_ok (fname f) = false) :
    generate_tiles w f = (none, none, none) := by
  unfold generate_tiles
  rw [h1]
  simp [h2]

lemma mkEntry_extract_none {w : World} {f : SrcFile}
    (h : w.extract (fname f) = none) : mkEntry w f = ⟨none, none, none, fname f⟩ := by
  unfold mkEntry
  rw [generate_tiles_extract_none h]

lemma mkEntry_tile_fail {w : World} {f : SrcFile} {info : RasterInfo}
    (h1 : w.extract (fname f) = some info) (h2 : w.tile_ok (fname f) = false) :
    mkEntry w f = ⟨none, none, none, fname f⟩ := by
  unfold mkEntry
  rw [generate_tiles_tile_fail h1 h2]

lemma dictInsert_lookup (d : List (String × OrthoConfig)) (k : String) (v : OrthoConfig)
    (q : String) :
    (dictInsert d k v).lookup q = if q = k then some v else d.lookup q := by
  induction d with
  | nil =>
    by_cases hqk : q = k
    · simp [dictInsert, List.lookup_cons, hqk]
    · have hb : (q == k) = false := beq_eq_false_iff_ne.mpr hqk
      simp [dictInsert, List.lookup_cons, hqk, hb]
  | cons e es ih =>
    obtain ⟨a, b⟩ := e
    by_cases hak : a = k
    · subst hak
      by_cases hqa : q = a
      · simp [dictInsert, List.lookup_cons, hqa]
      · have hb : (q == a) = false := beq_eq_false_iff_ne.mpr hqa
        simp [dictInsert, List.lookup_cons, hqa, hb]
    · by_cases hqa : q = a
      · subst hqa
        have hb : (q == q) = true := beq_self_eq_true q
        simp [dictInsert, hak, List.lookup_cons, Ne.symm hak, hb]
      · have hb : (q == a) = false := beq_eq_false_iff_ne.mpr hqa
        by_cases hqk : q = k
        · subst hqk
          simp [dictInsert, hak, List.lookup_cons, hb, ih]
        · simp [dictInsert, hak, List.lookup_cons, hqk, hb, ih]

lemma dictInsert_keys (d : List (String × OrthoConfig)) (k : String) (v : OrthoConfig) :
    (dictInsert d k v).map Prod.fst =
      if k ∈ d.map Prod.fst then d.map Prod.fst else d.map Prod.fst ++ [k] := by
  induction d with
  | nil => simp [dictInsert]
  | cons e es ih =>
    obtain ⟨a, b⟩ := e
    by_cases hak : a = k
    · subst hak
      simp [dictInsert]
    · by_cases hmem : k ∈ es.map Prod.fst <;>
        simp [dictInsert, hak, ih, Ne.symm hak, hmem]

lemma dictInsert_keys_nodup {d : List (String × OrthoConfig)} (k : String) (v : OrthoConfig)
    (h : (d.map Prod.fst).Nodup) : ((dictInsert d k v).map Prod.fst).Nodup := by
  rw [dictInsert_keys]
  by_cases hmem : k ∈ d.map Prod.fst
  · simpa [hmem] using h
  · simp [hmem, List.nodup_append, h]

lemma foldl_step_keys_nodup (w : World) (fs : List SrcFile) :
    ∀ d : List (String × OrthoConfig), (d.map Prod.fst).Nodup →
      ((fs.foldl (step w) d).map Prod.fst).Nodup := by
  induction fs with
  | nil => intro d h; simpa using h
  | cons f fs ih =>
    intro d h
    exact ih _ (dictInsert_keys_nodup _ _ h)

lemma processAll_keys_nodup (w : World) (fs : List SrcFile) :
    ((processAll w fs).map Prod.fst).Nodup :=
  foldl_step_keys_nodup w fs [] (by simp)

lemma mem_of_lookup_some {d : List (String × OrthoConfig)} {k : String} {v : OrthoConfig}
    (h : d.lookup k = some v) : (k, v) ∈ d := by
  induction d with
  | nil => simp at h
  | cons e es ih =>
    obtain ⟨a, b⟩ := e
    by_cases hka : k = a
    · subst hka
      rw [List.lookup_cons] at h
      simp at h
      simp [h]
    · have hb : (k == a) = false := beq_eq_false_iff_ne.mpr hka
      rw [List.lookup_cons, hb] at h
      exact List.mem_cons_of_mem _ (ih h)

lemma mem_keys_of_lookup_some {d : List (String × OrthoConfig)} {k : String} {v : OrthoConfig}
    (h : d.lookup k = some v) : k ∈ d.map Prod.fst := by
  have := mem_of_lookup_some h
  exact List.mem_map.mpr ⟨(k, v), this, rfl⟩

lemma findq_eq_of_unique {α : Type} (p : α → Bool) (l : List α) (a : α)
    (ha : a ∈ l) (hpa : p a = true) (huniq : ∀ b ∈ l, p b = true → b = a) :
    l.find? p = some a := by
  induction l with
  | nil => simp at ha
  | cons x xs ih =>
    by_cases hpx : p x = true
    · have hxa : x = a := huniq x (by simp) hpx
      subst hxa
      simp [List.find?_cons_of_pos _ hpx]
    · have hxa : ¬(x = a) := fun he => hpx (he ▸ hpa)
      rw [List.find?_cons_of_neg _ (by simpa using hpx)]
      apply ih
      · rcases List.mem_cons.mp ha with h | h
        · exact absurd h.symm hxa
        · exact h
      · intro b hb hpb
        exact huniq b (List.mem_cons_of_mem _ hb) hpb

lemma lookup_foldl_step (w : World) (fs : List SrcFile) :
    ∀ (d : List (String × OrthoConfig)) (k : String),
      (fs.foldl (step w) d).lookup k =
        match fs.reverse.find? (fun g => g.stem == k) with
        | some g => some (mkEntry w g)
        | none => d.lookup k := by
  induction fs with
  | nil => intro d k; simp
  | cons f fs ih =>
    intro d k
    rw [List.foldl_cons, step, ih, List.reverse_cons, List.find?_append]
    cases h : fs.reverse.find? (fun g => g.stem == k) with
    | some g => simp [h]
    | none =>
      rw [dictInsert_lookup]
      by_cases hk : f.stem = k
      · have hb : (f.stem == k) = true := beq_iff_eq.mpr hk
        simp [h, List.find?, hk, hb]
      · have hk2 : ¬(k = f.stem) := fun he => hk he.symm
        have hb : (f.stem == k) = false := beq_eq_false_iff_ne.mpr hk
        simp [h, List.find?, hk, hk2, hb]

lemma processAll_lookup (w : World) (fs : List SrcFile) (k : String) :
    (processAll w fs).lookup k =
      match fs.reverse.find? (fun g => g.stem == k) with
      | some g => some (mkEntry w g)
      | none => none := by
  rw [processAll, lookup_foldl_step]
  cases fs.reverse.find? (fun g => g.stem == k) <;> simp

lemma dictInsert_of_not_mem {d : List (String × OrthoConfig)} {k : String} (v : OrthoConfig)
    (h : k ∉ d.map Prod.fst) : dictInsert d k v = d ++ [(k, v)] := by
  induction d with
  | nil => rfl
  | cons e es ih =>
    obtain ⟨a, b⟩ := e
    simp only [List.map_cons, List.mem_cons] at h
    push_neg at h
    simp only [dictInsert]
    rw [if_neg (fun hak => h.1 hak.symm), ih h.2]
    simp

lemma foldl_step_eq_append (w : World) (fs : List SrcFile) :
    ∀ d : List (String × OrthoConfig),
      (∀ g ∈ fs, g.stem ∉ d.map Prod.fst) → (fs.map SrcFile.stem).Nodup →
      fs.foldl (step w) d = d ++ fs.map (fun g => (g.stem, mkEntry w g)) := by
  induction fs with
  | nil => intro d _ _; simp
  | cons f fs ih =>
    intro d hd hnd
    have hnd2 : (f.stem ∉ fs.map SrcFile.stem) ∧ (fs.map SrcFile.stem).Nodup := by
      rw [List.map_cons, List.nodup_cons] at hnd
      exact hnd
    rw [List.foldl_cons, step, dictInsert_of_not_mem _ (hd f (by simp))]
    rw [ih (d ++ [(f.stem, mkEntry w f)]) ?_ hnd2.2]
    · simp
    · intro g hg
      simp only [List.map_append, List.map_cons, List.map_nil, List.mem_append,
        List.mem_singleton]
      push_neg
      refine ⟨hd g (List.mem_cons_of_mem _ hg), fun he => hnd2.1 ?_⟩
      rw [← he]
      exact List.mem_map.mpr ⟨g, hg, rfl⟩

lemma processAll_eq_map (w : World) (fs : List SrcFile)
    (hnd : (fs.map SrcFile.stem).Nodup) :
    processAll w fs = fs.map (fun g => (g.stem, mkEntry w g)) := by
  rw [processAll, foldl_step_eq_append w fs [] (by simp) hnd]
  simp

lemma filterMap_erase {α β : Type} [DecidableEq α] (h : α → Option β) (l : List α) (a : α)
    (ha : h a = none) : (l.erase a).filterMap h = l.filterMap h := by
  induction l with
  | nil => simp
  | cons x xs ih =>
    by_cases hxa : x = a
    · subst hxa
      simp [List.erase_cons, List.filterMap_cons, ha]
    · simp [List.erase_cons, hxa, List.filterMap_cons, ih]

lemma logb_two_pow (n : ℕ) : Real.logb 2 ((2 : ℝ) ^ n) = n := by
  rw [Real.logb_pow, Real.logb_self_eq_one (by norm_num)]
  ring

lemma pyInt_intCast (n : ℤ) : pyInt (n : ℝ) = n := by
  unfold pyInt
  split
  · exact Int.floor_intCast n
  · exact Int.ceil_intCast n

lemma optimal_zoom_self : optimal_zoom meters_per_pixel_zoom0 = 0 := by
  unfold optimal_zoom
  rw [abs_of_pos meters_per_pixel_zoom0_pos,
    div_self (ne_of_gt meters_per_pixel_zoom0_pos), Real.logb_one]

lemma optimal_zoom_psLowRes : optimal_zoom psLowRes = -10 := by
  have hm := meters_per_pixel_zoom0_pos
  have ha : meters_per_pixel_zoom0 ≠ 0 := ne_of_gt hm
  unfold optimal_zoom psLowRes
  rw [abs_of_pos (by positivity)]
  have h1 : meters_per_pixel_zoom0 / (meters_per_pixel_zoom0 * 2 ^ (10 : ℕ)) =
      ((2 : ℝ) ^ (10 : ℕ))⁻¹ := by
    field_simp
  rw [h1, Real.logb_inv, logb_two_pow]
  norm_num

lemma optimal_zoom_psFallback : optimal_zoom psFallback = 30 := by
  have hm := meters_per_pixel_zoom0_pos
  have ha : meters_per_pixel_zoom0 ≠ 0 := ne_of_gt hm
  unfold optimal_zoom psFallback
  rw [abs_of_pos (by positivity)]
  have h1 : meters_per_pixel_zoom0 / (meters_per_pixel_zoom0 / 2 ^ (30 : ℕ)) =
      (2 : ℝ) ^ (30 : ℕ) := by
    field_simp
  rw [h1, logb_two_pow]
  norm_num

lemma optimal_zoom_psHighRes : optimal_zoom psHighRes = Real.logb 2 3 + 25 := by
  have hm := meters_per_pixel_zoom0_pos
  have ha : meters_per_pixel_zoom0 ≠ 0 := ne_of_gt hm
  unfold optimal_zoom psHighRes
  rw [abs_of_pos (by positivity)]
  have h1 : meters_per_pixel_zoom0 / (meters_per_pixel_zoom0 / (3 * 2 ^ (25 : ℕ))) =
      3 * (2 : ℝ) ^ (25 : ℕ) := by
    field_simp
  rw [h1, Real.logb_mul (by norm_num) (by positivity), logb_two_pow]
  norm_num

lemma logb_two_three_bounds : 1 < Real.logb 2 3 ∧ Real.logb 2 3 < 2 := by
  constructor
  · have h : Real.logb 2 2 < Real.logb 2 3 :=
      Real.logb_lt_logb (by norm_num) (by norm_num) (by norm_num)
    rwa [Real.logb_self_eq_one (by norm_num)] at h
  · have h : Real.logb 2 3 < Real.logb 2 4 :=
      Real.logb_lt_logb (by norm_num) (by norm_num) (by norm_num)
    have h4 : Real.logb 2 4 = 2 := by
      have h2 : ((2 : ℝ) ^ (2 : ℕ)) = 4 := by norm_num
      rw [← h2, logb_two_pow]
      norm_num
    rwa [h4] at h

/-- C1: for every positive, finite ground-sample distance the zoom range
estimator (calculate_zoom_levels) returns a pair with min <= max and is a
pure deterministic function of the ground-sample distance alone (the unused
image-width argument does not influence the result); both values lie within
[1, 22] under the amended extra condition that the truncated optimal zoom is
at least -3, which the counterexample shows cannot be dropped. -/
theorem c1_zoom_range (ps : ℝ) (w w2 : ℕ) (hps : 0 < ps) :
    (calculate_zoom_levels ps w).1 ≤ (calculate_zoom_levels ps w).2 ∧
    calculate_zoom_levels ps w = calculate_zoom_levels ps w2 ∧
    (-3 ≤ pyInt (optimal_zoom ps) →
      1 ≤ (calculate_zoom_levels ps w).1 ∧ (calculate_zoom_levels ps w).2 ≤ 22) := by
  unfold calculate_zoom_levels
  exact ⟨zoom_from_int_le _, rfl, fun ht => zoom_from_int_range _ ht⟩

/-- C1 counterexample: the positive, finite pixel size
meters_per_pixel_zoom0 * 2^10 has optimal zoom -10, and the estimator
returns (-6, 1), whose first component lies outside [1, 22]. -/
theorem c1_counterexample :
    0 < psLowRes ∧ calculate_zoom_levels psLowRes 100 = (-6, 1) ∧
      (calculate_zoom_levels psLowRes 100).1 < 1 := by
  have hpos : 0 < psLowRes := by
    unfold psLowRes
    exact mul_pos meters_per_pixel_zoom0_pos (by positivity)
  have hopt : pyInt (optimal_zoom psLowRes) = -10 := by
    rw [optimal_zoom_psLowRes]
    have h : ((-10 : ℤ) : ℝ) = (-10 : ℝ) := by norm_num
    rw [← h, pyInt_intCast]
  have hcalc : calculate_zoom_levels psLowRes 100 = (-6, 1) := by
    unfold calculate_zoom_levels
    rw [hopt]
    decide
  exact ⟨hpos, hcalc, by rw [hcalc]; norm_num⟩

/-- C1 witness: the amended theorem applied at the reference pixel size,
whose optimal zoom is 0. -/
theorem c1_witness :
    0 < meters_per_pixel_zoom0 ∧
    (-3 : ℤ) ≤ pyInt (optimal_zoom meters_per_pixel_zoom0) ∧
    (calculate_zoom_levels meters_per_pixel_zoom0 100).1 ≤
      (calculate_zoom_levels meters_per_pixel_zoom0 100).2 ∧
    calculate_zoom_levels meters_per_pixel_zoom0 100 =
      calculate_zoom_levels meters_per_pixel_zoom0 200 ∧
    1 ≤ (calculate_zoom_levels meters_per_pixel_zoom0 100).1 ∧
    (calculate_zoom_levels meters_per_pixel_zoom0 100).2 ≤ 22 := by
  have hopt : pyInt (optimal_zoom meters_per_pixel_zoom0) = 0 := by
    rw [optimal_zoom_self]
    have h : ((0 : ℤ) : ℝ) = (0 : ℝ) := by norm_num
    rw [← h, pyInt_intCast]
  have ht : (-3 : ℤ) ≤ pyInt (optimal_zoom meters_per_pixel_zoom0) := by
    rw [hopt]
    norm_num
  have h := c1_zoom_range meters_per_pixel_zoom0 100 200 meters_per_pixel_zoom0_pos
  exact ⟨meters_per_pixel_zoom0_pos, ht, h.1, h.2.1, (h.2.2 ht).1, (h.2.2 ht).2⟩

/-- C2 counterexample: the pixel size meters_per_pixel_zoom0 / (3 * 2^25)
has optimal zoom 25 + log2 3, strictly greater than 26, yet
calculate_zoom_levels returns (18, 22) rather than the fallback (10, 22). -/
theorem c2_counterexample :
    0 < psHighRes ∧ 26 < optimal_zoom psHighRes ∧
      calculate_zoom_levels psHighRes 100 = (18, 22) ∧
      calculate_zoom_levels psHighRes 100 ≠ (10, 22) := by
  have hb := logb_two_three_bounds
  have hopt := optimal_zoom_psHighRes
  have hpos : 0 < psHighRes := by
    unfold psHighRes
    exact div_pos meters_per_pixel_zoom0_pos (by positivity)
  have hgt : 26 < optimal_zoom psHighRes := by
    rw [hopt]
    linarith [hb.1]
  have hpy : pyInt (optimal_zoom psHighRes) = 26 := by
    rw [hopt]
    unfold pyInt
    rw [if_pos (by linarith [hb.1])]
    rw [Int.floor_eq_iff]
    constructor
    · push_cast
      linarith [hb.1]
    · push_cast
      linarith [hb.2]
  have hcalc : calculate_zoom_levels psHighRes 100 = (18, 22) := by
    unfold calculate_zoom_levels
    rw [hpy]
    decide
  exact ⟨hpos, hgt, hcalc, by rw [hcalc]; decide⟩

/-- C2 amended: for every ground-sample distance whose optimal zoom is at
least 27 (rather than exceeding 26), the estimator returns exactly the
fallback pair (10, 22). -/
theorem c2_fallback (ps : ℝ) (w : ℕ) (h : 27 ≤ optimal_zoom ps) :
    calculate_zoom_levels ps w = (10, 22) := by
  have h0 : (0 : ℝ) ≤ optimal_zoom ps := by linarith
  have hpy : 27 ≤ pyInt (optimal_zoom ps) := by
    rw [pyInt_of_nonneg h0]
    exact Int.le_floor.mpr (by exact_mod_cast h)
  unfold calculate_zoom_levels
  exact zoom_from_int_high _ hpy

/-- C2 witness: the amended theorem applied at a pixel size with optimal
zoom 30. -/
theorem c2_witness :
    27 ≤ optimal_zoom psFallback ∧ calculate_zoom_levels psFallback 100 = (10, 22) := by
  have h : 27 ≤ optimal_zoom psFallback := by
    rw [optimal_zoom_psFallback]
    norm_num
  exact ⟨h, c2_fallback psFallback 100 h⟩

lemma processAll_lookup_self (w : World) (fs : List SrcFile) (f : SrcFile)
    (hnd : (fs.map SrcFile.stem).Nodup) (hf : f ∈ fs) :
    (processAll w fs).lookup f.stem = some (mkEntry w f) := by
  rw [processAll_lookup]
  have hfind : fs.reverse.find? (fun g => g.stem == f.stem) = some f := by
    apply findq_eq_of_unique
    · exact List.mem_reverse.mpr hf
    · exact beq_self_eq_true _
    · intro b hb hpb
      exact List.inj_on_of_nodup_map hnd (List.mem_reverse.mp hb) hf (beq_iff_eq.mp hpb)
  rw [hfind]

lemma aggregate_erase {β : Type} (w : World) (fs : List SrcFile) (f : SrcFile)
    (hnd : (fs.map SrcFile.stem).Nodup) (p : OrthoConfig → Option β)
    (hp : p (mkEntry w f) = none) :
    (processAll w fs).filterMap (fun e => p e.2) =
      (processAll w (fs.erase f)).filterMap (fun e => p e.2) := by
  have hnd2 : ((fs.erase f).map SrcFile.stem).Nodup :=
    ((List.erase_sublist f fs).map SrcFile.stem).nodup hnd
  rw [processAll_eq_map w fs hnd, processAll_eq_map w _ hnd2,
    List.filterMap_map, List.filterMap_map]
  exact (filterMap_erase _ fs f (by simpa using hp)).symm

/-- C3: a layer whose metadata extraction fails still appears in the final
result set under its stem, with absent bounds and absent zoom range; every
discovered file still gets its own entry (the failure aborts nothing), and
the failed layer contributes nothing to the aggregate bounds and zoom lists
used for the overall bounds and overall zoom-range computation. -/
theorem c3_failed_extraction (w : World) (fs : List SrcFile) (f : SrcFile)
    (hnd : (fs.map SrcFile.stem).Nodup) (hf : f ∈ fs)
    (hfail : w.extract (fname f) = none) :
    (processAll w fs).lookup f.stem = some ⟨none, none, none, fname f⟩ ∧
    (processAll w fs).length = fs.length ∧
    all_bounds (processAll w fs) = all_bounds (processAll w (fs.erase f)) ∧
    all_min_zooms (processAll w fs) = all_min_zooms (processAll w (fs.erase f)) ∧
    all_max_zooms (processAll w fs) = all_max_zooms (processAll w (fs.erase f)) := by
  have hmk : mkEntry w f = ⟨none, none, none, fname f⟩ := mkEntry_extract_none hfail
  refine ⟨?_, ?_, ?_, ?_, ?_⟩
  · rw [processAll_lookup_self w fs f hnd hf, hmk]
  · rw [processAll_eq_map w fs hnd, List.length_map]
  · exact aggregate_erase w fs f hnd (fun c => c.bounds) (by rw [hmk])
  · exact aggregate_erase w fs f hnd (fun c => truthy_int c.min_zoom) (by rw [hmk]; rfl)
  · exact aggregate_erase w fs f hnd (fun c => truthy_int c.max_zoom) (by rw [hmk]; rfl)

/-- C3 witness: two files, both failing extraction; the first is recorded
with absent fields, both are present, and the aggregates ignore the first. -/
theorem c3_witness :
    (processAll wFail [fileA, fileB]).lookup fileA.stem =
      some ⟨none, none, none, fname fileA⟩ ∧
    (processAll wFail [fileA, fileB]).length = [fileA, fileB].length ∧
    all_bounds (processAll wFail [fileA, fileB]) =
      all_bounds (processAll wFail ([fileA, fileB].erase fileA)) ∧
    all_min_zooms (processAll wFail [fileA, fileB]) =
      all_min_zooms (processAll wFail ([fileA, fileB].erase fileA)) ∧
    all_max_zooms (processAll wFail [fileA, fileB]) =
      all_max_zooms (processAll wFail ([fileA, fileB].erase fileA)) :=
  c3_failed_extraction wFail [fileA, fileB] fileA (by decide) (by decide) rfl

/-- C9: when metadata extraction succeeds but the tiling command fails, the
layer is recorded with absent bounds as well as absent zoom (the extracted
bounds are discarded), it contributes nothing to the aggregate bounds list,
and its artifact layer entry carries absent bounds. -/
theorem c9_tiling_failure (w : World) (fs : List SrcFile) (f : SrcFile) (info : RasterInfo)
    (hnd : (fs.map SrcFile.stem).Nodup) (hf : f ∈ fs)
    (hx : w.extract (fname f) = some info) (ht : w.tile_ok (fname f) = false) :
    generate_tiles w f = (none, none, none) ∧
    (processAll w fs).lookup f.stem = some ⟨none, none, none, fname f⟩ ∧
    all_bounds (processAll w fs) = all_bounds (processAll w (fs.erase f)) ∧
    (f.stem, (none : Option Bounds)) ∈ layersOf (processAll w fs) := by
  have hmk : mkEntry w f = ⟨none, none, none, fname f⟩ := mkEntry_tile_fail hx ht
  have hlook : (processAll w fs).lookup f.stem = some ⟨none, none, none, fname f⟩ := by
    rw [processAll_lookup_self w fs f hnd hf, hmk]
  refine ⟨generate_tiles_tile_fail hx ht, hlook, ?_, ?_⟩
  · exact aggregate_erase w fs f hnd (fun c => c.bounds) (by rw [hmk])
  · have hm := mem_of_lookup_some hlook
    exact List.mem_map.mpr ⟨(f.stem, ⟨none, none, none, fname f⟩), hm, rfl⟩

/-- C9 witness: extraction of a.tif succeeds but tiling fails, and the
layer ends up with absent bounds everywhere. -/
theorem c9_witness :
    generate_tiles wTileFail fileA = (none, none, none) ∧
    (processAll wTileFail [fileA]).lookup fileA.stem =
      some ⟨none, none, none, fname fileA⟩ ∧
    all_bounds (processAll wTileFail [fileA]) =
      all_bounds (processAll wTileFail ([fileA].erase fileA)) ∧
    (fileA.stem, (none : Option Bounds)) ∈ layersOf (processAll wTileFail [fileA]) :=
  c9_tiling_failure wTileFail [fileA] fileA infoA (by decide) (by decide) rfl rfl

/-- C10: when a .tif file and a .tiff file share a stem, the final result
set holds exactly one entry under that stem, and its value is the entry of
the .tiff file, which is discovered after all .tif files and silently
overwrites the earlier result. -/
theorem c10_last_wins (w : World) (tifs tiffs : List SrcFile) (f1 f2 : SrcFile)
    (h1 : f1 ∈ tifs) (h2 : f2 ∈ tiffs) (hs : f1.stem = f2.stem)
    (hn1 : (tifs.map SrcFile.stem).Nodup) (hn2 : (tiffs.map SrcFile.stem).Nodup) :
    ((processAll w (tifs ++ tiffs)).map Prod.fst).count f1.stem = 1 ∧
    (processAll w (tifs ++ tiffs)).lookup f1.stem = some (mkEntry w f2) := by
  have hlook : (processAll w (tifs ++ tiffs)).lookup f1.stem = some (mkEntry w f2) := by
    rw [processAll_lookup, List.reverse_append, List.find?_append]
    have hfind2 : tiffs.reverse.find? (fun g => g.stem == f1.stem) = some f2 := by
      apply findq_eq_of_unique
      · exact List.mem_reverse.mpr h2
      · exact beq_iff_eq.mpr hs.symm
      · intro b hb hpb
        exact List.inj_on_of_nodup_map hn2 (List.mem_reverse.mp hb) h2
          (by rw [beq_iff_eq.mp hpb, hs])
    rw [hfind2]
    simp
  refine ⟨?_, hlook⟩
  exact List.count_eq_one_of_mem (processAll_keys_nodup w _) (mem_keys_of_lookup_some hlook)

/-- C10 witness: a.tif and a.tiff in the same run; one entry, worth the
a.tiff result. -/
theorem c10_witness :
    ((processAll wFail ([fileA] ++ [fileATiff])).map Prod.fst).count fileA.stem = 1 ∧
    (processAll wFail ([fileA] ++ [fileATiff])).lookup fileA.stem =
      some (mkEntry wFail fileATiff) :=
  c10_last_wins wFail [fileA] [fileATiff] fileA fileATiff (by decide) (by decide) rfl
    (by decide) (by decide)

/-- C4: when no processed layer has bounds, update_map_config returns before
writing anything, so no configuration artifact is produced, and the run
still completes with exit code 0. -/
theorem c4_no_bounds_no_artifact (w : World) (tifs tiffs : List SrcFile)
    (hg : w.gdal_ok = true) (hne : tifs ++ tiffs ≠ [])
    (hb : ∀ e ∈ processAll w (tifs ++ tiffs), e.2.bounds = none) :
    update_map_config (processAll w (tifs ++ tiffs)) = none ∧
    (mainRun w tifs tiffs).1 = 0 ∧
    (mainRun w tifs tiffs).2.2 = none := by
  have habs : all_bounds (processAll w (tifs ++ tiffs)) = [] :=
    List.filterMap_eq_nil_iff.mpr hb
  have hu : update_map_config (processAll w (tifs ++ tiffs)) = none := by
    unfold update_map_config synth_values
    rw [habs]
    rfl
  have hmain : mainRun w tifs tiffs =
      (0, processAll w (tifs ++ tiffs), update_map_config (processAll w (tifs ++ tiffs))) := by
    unfold mainRun
    rw [hg]
    simp [hne]
  exact ⟨hu, by rw [hmain], by rw [hmain]; exact hu⟩

/-- C4 witness: one file whose extraction fails; no artifact, exit code 0. -/
theorem c4_witness :
    update_map_config (processAll wFail ([fileA] ++ [])) = none ∧
    (mainRun wFail [fileA] []).1 = 0 ∧
    (mainRun wFail [fileA] []).2.2 = none := by
  apply c4_no_bounds_no_artifact
  · rfl
  · simp
  · intro e he
    rw [processAll_eq_map wFail _ (by decide)] at he
    simp at he
    rw [he, mkEntry_extract_none rfl]

/-- C5: the entry point exits with code 0 exactly when the GDAL pre-flight
check succeeds and at least one raster file is discovered; the only other
exit code is 1, produced by those two configuration errors, and a failed
pre-flight check yields an empty result set (nothing was processed).
Per-layer extraction or tiling failures never change the exit code. -/
theorem c5_exit_code (w : World) (tifs tiffs : List SrcFile) :
    ((mainRun w tifs tiffs).1 = 0 ↔ (w.gdal_ok = true ∧ tifs ++ tiffs ≠ [])) ∧
    ((mainRun w tifs tiffs).1 = 0 ∨ (mainRun w tifs tiffs).1 = 1) ∧
    (w.gdal_ok = false → (mainRun w tifs tiffs).2.1 = []) := by
  unfold mainRun
  cases hg : w.gdal_ok
  · simp
  · by_cases hne : tifs ++ tiffs = [] <;> simp [hne]

/-- C5 witness: the exit-code characterization at a concrete run with one
file whose layer processing fails. -/
theorem c5_witness :
    ((mainRun wFail [fileA] []).1 = 0 ↔ (wFail.gdal_ok = true ∧ [fileA] ++ [] ≠ [])) ∧
    ((mainRun wFail [fileA] []).1 = 0 ∨ (mainRun wFail [fileA] []).1 = 1) ∧
    (wFail.gdal_ok = false → (mainRun wFail [fileA] []).2.1 = []) :=
  c5_exit_code wFail [fileA] []

/-- C6: for every layer set with bounds whose maximal extent is positive,
the synthesized initial zoom, computed with Python int() truncation, equals
max(1, floor(10 - log2(maxRange * 10))): the truncation agrees with the
floor form of the specification on every such input. -/
theorem c6_initial_zoom (cfgs : List (String × OrthoConfig)) (v : SynthValues)
    (h : synth_values cfgs = some v) (hpos : 0 < v.max_range) :
    v.initial_zoom = max 1 ⌊(10 : ℝ) - Real.logb 2 ((v.max_range : ℝ) * 10)⌋ := by
  unfold synth_values synth_core at h
  cases habs : all_bounds cfgs with
  | nil =>
    rw [habs] at h
    simp at h
  | cons b bs =>
    rw [habs] at h
    simp only [Option.some.injEq] at h
    subst h
    exact max_one_pyInt_eq_max_one_floor _

/-- C6 witness: a single layer with an extent of 8/5 degrees; the initial
zoom is 6 on both the truncated and the floor form. -/
theorem c6_witness :
    synth_values cfgC6 = some vC6 ∧ 0 < vC6.max_range ∧
    vC6.initial_zoom = max 1 ⌊(10 : ℝ) - Real.logb 2 ((vC6.max_range : ℝ) * 10)⌋ := by
  have hlog16 : Real.logb 2 (16 : ℝ) = 4 := by
    have h2 : ((2 : ℝ) ^ (4 : ℕ)) = 16 := by norm_num
    rw [← h2, logb_two_pow]
    norm_num
  have hpy : pyInt ((10 : ℝ) - 4) = 6 := by
    have h6 : ((10 : ℝ) - 4) = ((6 : ℤ) : ℝ) := by norm_num
    rw [h6, pyInt_intCast]
  have hsv : synth_values cfgC6 = some vC6 := by
    unfold synth_values synth_core all_bounds cfgC6 vC6 all_min_zooms all_max_zooms
    simp only [List.filterMap, List.foldl, truthy_int]
    norm_num [max_def, min_def, SynthValues.mk.injEq]
    rw [hlog16, hpy]
    norm_num
  have hpos : 0 < vC6.max_range := by norm_num [vC6]
  exact ⟨hsv, hpos, c6_initial_zoom cfgC6 vC6 hsv hpos⟩

/-- C7: for the three worked example layers the overall bounds are
west -2, south -1, east 3, north 3, and the center is (1, 1/2), computed as
component-wise min/max and the midpoint of the overall bounds. -/
theorem c7_bounds_center :
    (synth_values cfgs7).map SynthValues.min_west = some (-2) ∧
    (synth_values cfgs7).map SynthValues.min_south = some (-1) ∧
    (synth_values cfgs7).map SynthValues.max_east = some 3 ∧
    (synth_values cfgs7).map SynthValues.max_north = some 3 ∧
    (synth_values cfgs7).map SynthValues.center_lat = some 1 ∧
    (synth_values cfgs7).map SynthValues.center_lng = some (1/2) := by
  have habs : all_bounds cfgs7 = [⟨-1, 0, 1, 2⟩, ⟨2, 1, 3, 3⟩, ⟨-2, -1, 0, 1⟩] := rfl
  unfold synth_values synth_core
  rw [habs]
  refine ⟨?_, ?_, ?_, ?_, ?_, ?_⟩ <;> simp <;> norm_num [max_def, min_def]

lemma all_bounds_proj (cfgs : List (String × OrthoConfig)) :
    all_bounds cfgs = (cfgs.map projCfg).filterMap (fun p => p.2.1) := by
  rw [List.filterMap_map]
  rfl

lemma all_min_zooms_proj (cfgs : List (String × OrthoConfig)) :
    all_min_zooms cfgs = (cfgs.map projCfg).filterMap (fun p => truthy_int p.2.2.1) := by
  rw [List.filterMap_map]
  rfl

lemma all_max_zooms_proj (cfgs : List (String × OrthoConfig)) :
    all_max_zooms cfgs = (cfgs.map projCfg).filterMap (fun p => truthy_int p.2.2.2) := by
  rw [List.filterMap_map]
  rfl

lemma layersOf_proj (cfgs : List (String × OrthoConfig)) :
    layersOf cfgs = (cfgs.map projCfg).map (fun p => (p.1, p.2.1)) := by
  rw [List.map_map]
  rfl

/-- C8: update_map_config is a pure function of the sequence of layer names,
bounds and zoom values: two dictionaries agreeing on those fields (in the
same order) produce byte-identical artifact content. -/
theorem c8_deterministic (cfgs1 cfgs2 : List (String × OrthoConfig))
    (h : cfgs1.map projCfg = cfgs2.map projCfg) :
    update_map_config cfgs1 = update_map_config cfgs2 := by
  have hb : all_bounds cfgs1 = all_bounds cfgs2 := by
    rw [all_bounds_proj, all_bounds_proj, h]
  have hmn : all_min_zooms cfgs1 = all_min_zooms cfgs2 := by
    rw [all_min_zooms_proj, all_min_zooms_proj, h]
  have hmx : all_max_zooms cfgs1 = all_max_zooms cfgs2 := by
    rw [all_max_zooms_proj, all_max_zooms_proj, h]
  have hl : layersOf cfgs1 = layersOf cfgs2 := by
    rw [layersOf_proj, layersOf_proj, h]
  unfold update_map_config synth_values
  rw [hb, hmn, hmx, hl]

/-- C8 witness: two runs over dictionaries equal up to the unread
source_file field produce the same artifact content. -/
theorem c8_witness :
    cfgsA.map projCfg = cfgsB.map projCfg ∧
    update_map_config cfgsA = update_map_config cfgsB := by
  have h : cfgsA.map projCfg = cfgsB.map projCfg := rfl
  exact ⟨h, c8_deterministic cfgsA cfgsB h⟩

end MapViewer
